import Mathlib

/-!
Verification of the GAMDL audio-quality utilities (`check.py`, `metadata.py`).

The Python sources are embedded shallowly:
* pure functions (`get_audio_quality`, the inspector's quality rule table)
  become Lean functions on `Nat`/`String`;
* fallible external calls (the `mutagen` container readers, `Path.stat`)
  become `Except String _` fields of the per-file record, consumed exactly
  where the Python code calls them, with the `try/except` blocks modelled by
  matching on the `Except` value at the same point the interpreter would
  unwind to the handler;
* Python's float arithmetic on sizes and durations is modelled exactly over
  `ℚ` (every float value is a rational);
* Python's `in` on strings (substring test) is `hasSubstr` on the character
  lists, and `str.endswith`-style glob matching is `endsList`.
-/

/-- `leadsList n h` is true iff `n` is an initial segment of `h`
(the character-list model of a string beginning with another). -/
def leadsList : List Char → List Char → Bool
  | [], _ => true
  | _ :: _, [] => false
  | a :: as, b :: bs => a = b && leadsList as bs

/-- Python's `needle in hay` for strings: `needle` occurs contiguously in `hay`. -/
def hasSubstr (n : List Char) : List Char → Bool
  | [] => n.isEmpty
  | c :: t => leadsList n (c :: t) || hasSubstr n t

/-- `endsList n h` is true iff `h` ends with `n` (model of the
case-sensitive tail match performed by the `rglob("*<ext>")` patterns). -/
def endsList (n h : List Char) : Bool :=
  leadsList n.reverse h.reverse

/-- Python's `str.lower()` restricted to the ASCII suffixes compared here,
as a structurally recursive map over the character list. -/
def lowerStr (s : String) : String := ⟨s.data.map Char.toLower⟩

/-- `check.py:get_audio_quality` — quality label from a kbps bitrate,
thresholds tested in descending order, first match wins. -/
def get_audio_quality (bitrate : Nat) : String :=
  if bitrate ≥ 320 then "320kbps (High Quality)"
  else if bitrate ≥ 256 then "256kbps (Good Quality)"
  else if bitrate ≥ 192 then "192kbps (Medium Quality)"
  else if bitrate ≥ 128 then "128kbps (Standard Quality)"
  else if bitrate > 0 then toString bitrate ++ "kbps (Low Quality)"
  else "Unknown Quality"

/-- What a `mutagen` open (`MP4`/`MP3`/`FLAC`/`WAVE`/`File`) yields when it
does not raise: whether the generic probe returned a truthy object
(`File(path)` may return `None`), and the optional `info.bitrate`
(bits/sec) and `info.length` (seconds) attributes. -/
structure MediaProps where
  found : Bool
  bitrate : Option Nat
  length : Option ℚ
deriving DecidableEq

deriving instance DecidableEq for Except

/-- A file as the bulk scanner sees it: its base name, its suffix, what the
container reader would return for it (or the exception it would raise), and
what `stat().st_size` would return (or the exception it would raise). -/
structure AudioFile where
  name : String
  ext : String
  read : Except String MediaProps
  stat : Except String Nat
deriving DecidableEq

/-- The single line `print(f"Error reading {file_path.name}: {e}")` emitted
by `get_audio_bitrate`'s `except` handler. -/
def errLog (f : AudioFile) (e : String) : List String :=
  ["Error reading " ++ f.name ++ ": " ++ e]

/-- The size/duration-derived estimate `int((file_size * 8) / (duration * 1000))`
used for FLAC (when no bitrate field) and WAV; 0 when the duration is not
positive.  For non-negative operands `int` truncation is the floor. -/
def derivedKbps (size : Nat) (duration : ℚ) : Nat :=
  if 0 < duration then (⌊(size * 8 : ℚ) / (duration * 1000)⌋).toNat else 0

/-- `check.py:get_audio_bitrate` — kbps estimate for a file, together with
the error lines it prints.  Each arm consumes the reader/stat oracle exactly
where the Python code calls it; a raised exception transfers control to the
single top-level handler, which logs and returns 0. -/
def get_audio_bitrate (f : AudioFile) : Nat × List String :=
  let file_ext := lowerStr f.ext
  if file_ext = ".m4a" ∨ file_ext = ".mp4" then
    match f.read with
    | .error e => (0, errLog f e)
    | .ok p => ((p.bitrate.getD 0) / 1000, [])
  else if file_ext = ".mp3" then
    match f.read with
    | .error e => (0, errLog f e)
    | .ok p => ((p.bitrate.getD 0) / 1000, [])
  else if file_ext = ".flac" then
    match f.read with
    | .error e => (0, errLog f e)
    | .ok p =>
      match p.bitrate with
      | some b => (b / 1000, [])
      | none =>
        match f.stat with
        | .error e => (0, errLog f e)
        | .ok size => (derivedKbps size (p.length.getD 0), [])
  else if file_ext = ".wav" ∨ file_ext = ".wave" then
    match f.read with
    | .error e => (0, errLog f e)
    | .ok p =>
      match f.stat with
      | .error e => (0, errLog f e)
      | .ok size => (derivedKbps size (p.length.getD 0), [])
  else if file_ext = ".aac" ∨ file_ext = ".ogg" ∨ file_ext = ".opus" ∨ file_ext = ".wma" then
    match f.read with
    | .error e => (0, errLog f e)
    | .ok p =>
      if p.found && p.bitrate.isSome then ((p.bitrate.getD 0) / 1000, []) else (0, [])
  else
    (0, [])

/-- The set of suffixes for which `get_audio_bitrate` has a dedicated
strategy (every branch of its `if/elif` chain). -/
def resolverKnownExts : List String :=
  [".m4a", ".mp4", ".mp3", ".flac", ".wav", ".wave", ".aac", ".ogg", ".opus", ".wma"]

/-- The six statistics buckets of the detailed report. -/
inductive Bucket
  | high | good | medium | standard | low | unknown
deriving DecidableEq

/-- The substring cascade of `check_audio_quality`'s loop
(`"320kbps" in quality`, …, `"Low Quality" in quality`, else Unknown),
deciding which `quality_stats` key is incremented. -/
def bucketOf (quality : String) : Bucket :=
  if hasSubstr "320kbps".data quality.data then .high
  else if hasSubstr "256kbps".data quality.data then .good
  else if hasSubstr "192kbps".data quality.data then .medium
  else if hasSubstr "128kbps".data quality.data then .standard
  else if hasSubstr "Low Quality".data quality.data then .low
  else .unknown

/-- Modelled from the spec (refinement comparison only): the tier the §4.3
threshold table assigns to a bitrate by value, evaluated in strict
descending order, the merged Low bucket for `0 < b < 128`. -/
def specTier (b : Nat) : Bucket :=
  if b ≥ 320 then .high
  else if b ≥ 256 then .good
  else if b ≥ 192 then .medium
  else if b ≥ 128 then .standard
  else if b > 0 then .low
  else .unknown

/-- The `quality_stats` table of the detailed report plus its running
`total_size` accumulator (MB, exact rational arithmetic). -/
@[ext] structure Stats where
  high : Nat
  good : Nat
  medium : Nat
  standard : Nat
  low : Nat
  unknown : Nat
  totalSize : ℚ
deriving DecidableEq

def initStats : Stats := ⟨0, 0, 0, 0, 0, 0, 0⟩

/-- Increment the bucket chosen by the substring cascade. -/
def addToBucket (s : Stats) : Bucket → Stats
  | .high => { s with high := s.high + 1 }
  | .good => { s with good := s.good + 1 }
  | .medium => { s with medium := s.medium + 1 }
  | .standard => { s with standard := s.standard + 1 }
  | .low => { s with low := s.low + 1 }
  | .unknown => { s with unknown := s.unknown + 1 }

/-- One iteration of `check_audio_quality`'s per-file loop: `stat` first
(a raise lands in the `except` arm, which only bumps Unknown), then the
size is accumulated, the bitrate resolved, the label classified and the
matching bucket bumped. -/
def processFile (s : Stats) (f : AudioFile) : Stats :=
  match f.stat with
  | .error _ => { s with unknown := s.unknown + 1 }
  | .ok size =>
    let s1 := { s with totalSize := s.totalSize + (size : ℚ) / (1024 * 1024) }
    addToBucket s1 (bucketOf (get_audio_quality (get_audio_bitrate f).1))

def sumBuckets (s : Stats) : Nat :=
  s.high + s.good + s.medium + s.standard + s.low + s.unknown

/-- Projection of the bucket counters, for stating per-bucket facts. -/
def countOf (s : Stats) : Bucket → Nat
  | .high => s.high
  | .good => s.good
  | .medium => s.medium
  | .standard => s.standard
  | .low => s.low
  | .unknown => s.unknown

/-- The bucket a file lands in during the detailed report's loop: a `stat`
raise goes to the `except` arm (Unknown), otherwise the resolved bitrate's
label is pushed through the substring cascade. -/
def bucketFile (f : AudioFile) : Bucket :=
  match f.stat with
  | .error _ => .unknown
  | .ok _ => bucketOf (get_audio_quality (get_audio_bitrate f).1)

/-- The statistics `check_audio_quality` accumulates over a file list. -/
def detailedStats (files : List AudioFile) : Stats :=
  files.foldl processFile initStats

inductive DetailedResult
  | noFiles (msg : String)
  | report (stats : Stats) (total : Nat)
deriving DecidableEq

/-- `check.py:check_audio_quality`, abstracted over the discovered file
list: the empty-scan early return, else the aggregated report. -/
def check_audio_quality (files : List AudioFile) : DetailedResult :=
  match files with
  | [] => .noFiles "No audio files found!"
  | _ :: _ => .report (detailedStats files) files.length

/-- The sum over the six buckets of `count / total * 100`, as printed by the
summary (buckets with count 0 are skipped by the printing loop but
contribute 0 to this sum). -/
def bucketPercSum (s : Stats) (n : Nat) : ℚ :=
  (s.high : ℚ) / n * 100 + (s.good : ℚ) / n * 100 + (s.medium : ℚ) / n * 100 +
    (s.standard : ℚ) / n * 100 + (s.low : ℚ) / n * 100 + (s.unknown : ℚ) / n * 100

/-- Python's `quality_stats[q] = quality_stats.get(q, 0) + 1` on an
insertion-ordered dict, modelled as an association list: bump the existing
entry, or append a fresh one at the end. -/
def bumpCount (d : List (String × Nat)) (q : String) : List (String × Nat) :=
  match d with
  | [] => [(q, 1)]
  | (k, v) :: t => if k = q then (k, v + 1) :: t else (k, v) :: bumpCount t q

/-- The count stored under key `q` (0 when absent). -/
def lookupCount (d : List (String × Nat)) (q : String) : Nat :=
  match d with
  | [] => 0
  | (k, v) :: t => if k = q then v else lookupCount t q

/-- The sum of all counts in the table. -/
def sumVals (d : List (String × Nat)) : Nat :=
  match d with
  | [] => 0
  | (_, v) :: t => v + sumVals t

/-- The sum of `count / total * 100` over the table's entries. -/
def percSum (d : List (String × Nat)) (n : Nat) : ℚ :=
  match d with
  | [] => 0
  | (_, v) :: t => (v : ℚ) / n * 100 + percSum t n

/-- The label a file receives in `quick_quality_check`'s loop: a raise from
`stat` lands in the `except` arm (key "Unknown Quality"); otherwise the
resolved bitrate is classified. -/
def quickLabel (f : AudioFile) : String :=
  match f.stat with
  | .error _ => "Unknown Quality"
  | .ok _ => get_audio_quality (get_audio_bitrate f).1

/-- The MB contribution of a file to a running `total_size`: 0 when its
`stat` raises (the raise precedes the accumulation). -/
def sizeContrib (f : AudioFile) : ℚ :=
  match f.stat with
  | .error _ => 0
  | .ok size => (size : ℚ) / (1024 * 1024)

/-- `quick_quality_check`'s accumulator: the label→count dict plus the
running total size. -/
structure QuickStats where
  counts : List (String × Nat)
  totalSize : ℚ
deriving DecidableEq

/-- One iteration of `quick_quality_check`'s loop. -/
def quickStep (s : QuickStats) (f : AudioFile) : QuickStats :=
  match f.stat with
  | .error _ => { s with counts := bumpCount s.counts "Unknown Quality" }
  | .ok size =>
    { counts := bumpCount s.counts (get_audio_quality (get_audio_bitrate f).1),
      totalSize := s.totalSize + (size : ℚ) / (1024 * 1024) }

def quickStats (files : List AudioFile) : QuickStats :=
  files.foldl quickStep ⟨[], 0⟩

inductive QuickResult
  | noFiles (msg : String)
  | summary (stats : QuickStats) (total : Nat)
deriving DecidableEq

/-- `check.py:quick_quality_check`, abstracted over the discovered file list. -/
def quick_quality_check (files : List AudioFile) : QuickResult :=
  match files with
  | [] => .noFiles "No audio files found!"
  | _ :: _ => .summary (quickStats files) files.length

/-- The label under which `check_specific_folder` groups a file (its loop
calls no `stat`, and the resolver catches its own errors, so every file
receives a label). -/
def folderLabel (f : AudioFile) : String :=
  get_audio_quality (get_audio_bitrate f).1

/-- `bitrate_groups[quality].append(audio_file)` on an insertion-ordered
dict of lists. -/
def bumpGroup (d : List (String × List AudioFile)) (q : String) (f : AudioFile) :
    List (String × List AudioFile) :=
  match d with
  | [] => [(q, [f])]
  | (k, v) :: t => if k = q then (k, v ++ [f]) :: t else (k, v) :: bumpGroup t q f

def sumGroupSizes (d : List (String × List AudioFile)) : Nat :=
  match d with
  | [] => 0
  | (_, v) :: t => v.length + sumGroupSizes t

def folderGroups (files : List AudioFile) : List (String × List AudioFile) :=
  files.foldl (fun d f => bumpGroup d (folderLabel f) f) []

inductive FolderResult
  | noFiles (msg : String)
  | groups (d : List (String × List AudioFile)) (total : Nat)
deriving DecidableEq

/-- `check.py:check_specific_folder`, abstracted over the file list its
scan discovered under the user-supplied root. -/
def check_specific_folder (files : List AudioFile) : FolderResult :=
  match files with
  | [] => .noFiles "No audio files found in the specified folder!"
  | _ :: _ => .groups (folderGroups files) files.length

/-- The `audio_extensions` literal shared by all three bulk modes. -/
def audio_extensions : List String :=
  [".mp3", ".m4a", ".flac", ".wav", ".aac", ".ogg", ".wma", ".opus"]

/-- Whether a file name is picked up by one of the `rglob(f"*{ext}")`
passes: POSIX glob matching is case-sensitive, so this is an exact
(case-sensitive) tail match against a lowercase extension. -/
def matchesScan (filename : String) : Bool :=
  audio_extensions.any (fun ext => endsList ext.data filename.data)

/-- The scanner's discovery loop: one `rglob` pass per extension, each
appending its matches (in tree order) to `audio_files`. -/
def scanResult (names : List String) : List String :=
  audio_extensions.foldl
    (fun acc ext => acc ++ names.filter (fun n => endsList ext.data n.data)) []

/-- What an `MP4(path)` open in `metadata.py` yields when it does not
raise: the optional info attributes, the file's byte size (its `stat` and
the PIL decode happen inside the same `try`, so their failures are the
`.error` case of `read`), the four tag lookups and the cover-art list's
head. -/
structure CoverArt where
  jpeg : Bool
  width : Nat
  height : Nat
  byteSize : Nat
deriving DecidableEq

structure MP4Props where
  bitrate : Option Nat
  sample_rate : Option Nat
  length : Option ℚ
  size : Nat
  title : Option String
  artist : Option String
  album : Option String
  albumArtist : Option String
  cover : Option CoverArt
deriving DecidableEq

/-- A file as the single-file inspector sees it. -/
structure InspectFile where
  name : String
  ext : String
  present : Bool
  read : Except String MP4Props
deriving DecidableEq

/-- `metadata.py`'s quality rule table, first match wins. -/
def inspectorQuality (sample_rate bitrate : Nat) : String :=
  if sample_rate ≥ 96000 then "Hi-Res (96kHz+)"
  else if sample_rate ≥ 48000 ∧ bitrate ≥ 2000000 then "Lossless (48kHz)"
  else if sample_rate ≥ 44100 ∧ bitrate ≥ 1000000 then "Lossless (44.1kHz)"
  else if bitrate ≥ 500000 then "High Quality AAC 500kbps+"
  else if bitrate ≥ 320000 then "AAC 320kbps"
  else "AAC 256kbps or lower"

/-- The block of lines `get_audio_info` prints on success. -/
structure InspectReport where
  name : String
  title : String
  artist : String
  album : String
  albumArtist : String
  bitrateKbps : Nat
  sampleRate : Nat
  durMin : Nat
  durSec : Nat
  fileSizeMB : ℚ
  quality : String
  cover : Option (String × Nat × Nat × ℚ)
deriving DecidableEq

inductive InspectResult
  | fileNotFound (msg : String)
  | unsupported (msg : String)
  | readError (msg : String)
  | report (r : InspectReport)
deriving DecidableEq

/-- `metadata.py:get_audio_info` — the existence guard, then the extension
guard, then the guarded metadata extraction and report. -/
def get_audio_info (f : InspectFile) : InspectResult :=
  if f.present = false then
    .fileNotFound ("File not found: " ++ f.name)
  else if ¬ (lowerStr f.ext = ".m4a" ∨ lowerStr f.ext = ".mp4") then
    .unsupported "Only supports .m4a or .mp4 files"
  else
    match f.read with
    | .error e => .readError ("Error reading file: " ++ e)
    | .ok p =>
      let bitrate := p.bitrate.getD 0
      let sample_rate := p.sample_rate.getD 0
      let length := p.length.getD 0
      .report
        { name := f.name
          title := p.title.getD "Unknown"
          artist := p.artist.getD "Unknown"
          album := p.album.getD "Unknown"
          albumArtist := p.albumArtist.getD "Unknown"
          bitrateKbps := bitrate / 1000
          sampleRate := sample_rate
          durMin := (⌊length / 60⌋).toNat
          durSec := (⌊length - 60 * ⌊length / 60⌋⌋).toNat
          fileSizeMB := (p.size : ℚ) / (1024 * 1024)
          quality := inspectorQuality sample_rate bitrate
          cover := p.cover.map fun c =>
            (if c.jpeg then "JPEG" else "PNG", c.width, c.height, (c.byteSize : ℚ) / 1024) }

/-! ### Helper lemmas about the classifier -/

theorem gq_of_ge_320 {b : Nat} (h : 320 ≤ b) :
    get_audio_quality b = "320kbps (High Quality)" := by
  unfold get_audio_quality
  rw [if_pos (by omega)]

theorem gq_of_ge_256 {b : Nat} (h : 256 ≤ b) (h2 : b < 320) :
    get_audio_quality b = "256kbps (Good Quality)" := by
  unfold get_audio_quality
  rw [if_neg (by omega), if_pos (by omega)]

theorem gq_of_ge_192 {b : Nat} (h : 192 ≤ b) (h2 : b < 256) :
    get_audio_quality b = "192kbps (Medium Quality)" := by
  unfold get_audio_quality
  rw [if_neg (by omega), if_neg (by omega), if_pos (by omega)]

theorem gq_of_ge_128 {b : Nat} (h : 128 ≤ b) (h2 : b < 192) :
    get_audio_quality b = "128kbps (Standard Quality)" := by
  unfold get_audio_quality
  rw [if_neg (by omega), if_neg (by omega), if_neg (by omega), if_pos (by omega)]

theorem gq_of_low {b : Nat} (h : 0 < b) (h2 : b < 128) :
    get_audio_quality b = toString b ++ "kbps (Low Quality)" := by
  unfold get_audio_quality
  rw [if_neg (by omega), if_neg (by omega), if_neg (by omega), if_neg (by omega),
    if_pos (by omega)]

theorem gq_of_zero : get_audio_quality 0 = "Unknown Quality" := rfl

/-- In the merged-low range the label never contains one of the four named
threshold substrings, and the cascade lands in the Low bucket.  Finite
check over all 127 values. -/
theorem low_label_no_marker : ∀ b : Nat, b < 128 → 0 < b →
    (hasSubstr "320kbps".data (toString b ++ "kbps (Low Quality)").data = false
    ∧ hasSubstr "256kbps".data (toString b ++ "kbps (Low Quality)").data = false
    ∧ hasSubstr "192kbps".data (toString b ++ "kbps (Low Quality)").data = false
    ∧ hasSubstr "128kbps".data (toString b ++ "kbps (Low Quality)").data = false
    ∧ bucketOf (toString b ++ "kbps (Low Quality)") = .low) := by
  decide

/-! ### C1 -/

/-- C1: `get_audio_quality` assigns exactly one label per bitrate, by the
first matching rule in strict descending threshold order, embedding the
literal value in the low range; in particular 320 is High, 319 is Good and
0 is Unknown. -/
theorem get_audio_quality_spec (b : Nat) :
    (320 ≤ b → get_audio_quality b = "320kbps (High Quality)")
    ∧ (256 ≤ b → b < 320 → get_audio_quality b = "256kbps (Good Quality)")
    ∧ (192 ≤ b → b < 256 → get_audio_quality b = "192kbps (Medium Quality)")
    ∧ (128 ≤ b → b < 192 → get_audio_quality b = "128kbps (Standard Quality)")
    ∧ (0 < b → b < 128 → get_audio_quality b = toString b ++ "kbps (Low Quality)")
    ∧ (b = 0 → get_audio_quality b = "Unknown Quality")
    ∧ get_audio_quality 320 = "320kbps (High Quality)"
    ∧ get_audio_quality 319 = "256kbps (Good Quality)"
    ∧ get_audio_quality 0 = "Unknown Quality" := by
  refine ⟨gq_of_ge_320, gq_of_ge_256, gq_of_ge_192, gq_of_ge_128, gq_of_low,
    ?_, by decide, by decide, rfl⟩
  rintro rfl
  rfl

/-- Witness for C1 at concrete bitrates. -/
theorem get_audio_quality_spec_app :
    get_audio_quality 300 = "256kbps (Good Quality)"
    ∧ get_audio_quality 67 = "67kbps (Low Quality)" :=
  ⟨(get_audio_quality_spec 300).2.1 (by decide) (by decide),
   (get_audio_quality_spec 67).2.2.2.2.1 (by decide) (by decide)⟩

/-! ### C10 -/

/-- C10: the detailed report's substring bucketing, applied to the label
`get_audio_quality` produces, is exactly classification by value over the
threshold table, every merged-low label lands in the Low bucket, and no
low label contains one of the four named-threshold substrings. -/
theorem substring_bucketing_refines_value (b : Nat) :
    bucketOf (get_audio_quality b) = specTier b
    ∧ (0 < b → b < 128 →
        hasSubstr "320kbps".data (get_audio_quality b).data = false
        ∧ hasSubstr "256kbps".data (get_audio_quality b).data = false
        ∧ hasSubstr "192kbps".data (get_audio_quality b).data = false
        ∧ hasSubstr "128kbps".data (get_audio_quality b).data = false) := by
  rcases Nat.lt_or_ge b 128 with hb | hb
  · rcases Nat.eq_zero_or_pos b with rfl | hpos
    · exact ⟨by decide, fun h => absurd h (by decide)⟩
    · have hlab := gq_of_low hpos hb
      have hm := low_label_no_marker b hb hpos
      rw [hlab]
      refine ⟨?_, fun _ _ => ⟨hm.1, hm.2.1, hm.2.2.1, hm.2.2.2.1⟩⟩
      rw [hm.2.2.2.2]
      unfold specTier
      rw [if_neg (by omega), if_neg (by omega), if_neg (by omega), if_neg (by omega),
        if_pos (by omega)]
  · refine ⟨?_, by omega⟩
    by_cases h1 : 320 ≤ b
    · rw [gq_of_ge_320 h1]
      unfold specTier
      rw [if_pos (show b ≥ 320 from h1)]
      decide
    · by_cases h2 : 256 ≤ b
      · rw [gq_of_ge_256 h2 (by omega)]
        unfold specTier
        rw [if_neg (by omega), if_pos (show b ≥ 256 from h2)]
        decide
      · by_cases h3 : 192 ≤ b
        · rw [gq_of_ge_192 h3 (by omega)]
          unfold specTier
          rw [if_neg (by omega), if_neg (by omega), if_pos (show b ≥ 192 from h3)]
          decide
        · rw [gq_of_ge_128 hb (by omega)]
          unfold specTier
          rw [if_neg (by omega), if_neg (by omega), if_neg (by omega),
            if_pos (show b ≥ 128 from hb)]
          decide

/-- Witness for C10 in the merged-low range. -/
theorem substring_bucketing_refines_value_app :
    bucketOf (get_audio_quality 50) = specTier 50
    ∧ (hasSubstr "320kbps".data (get_audio_quality 50).data = false
      ∧ hasSubstr "256kbps".data (get_audio_quality 50).data = false
      ∧ hasSubstr "192kbps".data (get_audio_quality 50).data = false
      ∧ hasSubstr "128kbps".data (get_audio_quality 50).data = false) :=
  ⟨(substring_bucketing_refines_value 50).1,
   (substring_bucketing_refines_value 50).2 (by decide) (by decide)⟩

/-! ### C2 -/

/-- C2: `get_audio_bitrate` never propagates an error: every raise from the
container reader or from `stat` is caught at the single top-level handler,
logged with the file name, and turned into the result 0; the result is a
natural number (non-negative by type), and it is 0 for an unrecognized
extension, for a missing bitrate field in the direct-read branches, and for
a non-positive or missing duration in the size/duration-derived branches. -/
theorem resolver_error_policy (f : AudioFile) (e : String) (p : MediaProps) (n : Nat) :
    (f.read = .error e → lowerStr f.ext ∈ resolverKnownExts →
      get_audio_bitrate f = (0, ["Error reading " ++ f.name ++ ": " ++ e]))
    ∧ (f.read = .ok p → p.bitrate = none → f.stat = .error e → lowerStr f.ext = ".flac" →
      get_audio_bitrate f = (0, ["Error reading " ++ f.name ++ ": " ++ e]))
    ∧ (f.read = .ok p → f.stat = .error e →
      (lowerStr f.ext = ".wav" ∨ lowerStr f.ext = ".wave") →
      get_audio_bitrate f = (0, ["Error reading " ++ f.name ++ ": " ++ e]))
    ∧ (lowerStr f.ext ∉ resolverKnownExts → get_audio_bitrate f = (0, []))
    ∧ (f.read = .ok p → p.bitrate = none →
      (lowerStr f.ext = ".m4a" ∨ lowerStr f.ext = ".mp4" ∨ lowerStr f.ext = ".mp3") →
      get_audio_bitrate f = (0, []))
    ∧ (f.read = .ok p → (p.found = false ∨ p.bitrate = none) →
      (lowerStr f.ext = ".aac" ∨ lowerStr f.ext = ".ogg" ∨ lowerStr f.ext = ".opus" ∨
        lowerStr f.ext = ".wma") →
      get_audio_bitrate f = (0, []))
    ∧ (f.read = .ok p → p.bitrate = none → f.stat = .ok n → p.length.getD 0 ≤ 0 →
      lowerStr f.ext = ".flac" → get_audio_bitrate f = (0, []))
    ∧ (f.read = .ok p → f.stat = .ok n → p.length.getD 0 ≤ 0 →
      (lowerStr f.ext = ".wav" ∨ lowerStr f.ext = ".wave") →
      get_audio_bitrate f = (0, [])) := by
  refine ⟨?_, ?_, ?_, ?_, ?_, ?_, ?_, ?_⟩
  · intro hr hm
    simp only [resolverKnownExts, List.mem_cons, List.not_mem_nil, or_false] at hm
    rcases hm with h | h | h | h | h | h | h | h | h | h <;>
      simp [get_audio_bitrate, h, hr, errLog]
  · intro hr hb hs h
    simp [get_audio_bitrate, h, hr, hb, hs, errLog]
  · intro hr hs h
    rcases h with h | h <;> simp [get_audio_bitrate, h, hr, hs, errLog]
  · intro hm
    simp only [resolverKnownExts, List.mem_cons, List.not_mem_nil, or_false] at hm
    push_neg at hm
    obtain ⟨h1, h2, h3, h4, h5, h6, h7, h8, h9, h10⟩ := hm
    simp [get_audio_bitrate, h1, h2, h3, h4, h5, h6, h7, h8, h9, h10]
  · intro hr hb h
    rcases h with h | h | h <;> simp [get_audio_bitrate, h, hr, hb]
  · intro hr hb h
    rcases hb with hb | hb <;> rcases h with h | h | h | h <;>
      simp [get_audio_bitrate, h, hr, hb]
  · intro hr hb hs hd h
    have : ¬ (0 < p.length.getD 0) := by exact not_lt.mpr hd
    simp [get_audio_bitrate, h, hr, hb, hs, derivedKbps, this]
  · intro hr hs hd h
    have hnd : ¬ (0 < p.length.getD 0) := not_lt.mpr hd
    rcases h with h | h <;> simp [get_audio_bitrate, h, hr, hs, derivedKbps, hnd]

/-- Witness for C2: a `.mp3` whose reader raises is logged and resolved to 0,
and a `.txt` resolves to 0 with no log. -/
theorem resolver_error_policy_app :
    get_audio_bitrate ⟨"a.mp3", ".mp3", .error "bad frame", .ok 9⟩ =
      (0, ["Error reading a.mp3: bad frame"])
    ∧ get_audio_bitrate ⟨"n.txt", ".txt", .ok ⟨true, some 64000, none⟩, .ok 9⟩ = (0, []) :=
  ⟨(resolver_error_policy ⟨"a.mp3", ".mp3", .error "bad frame", .ok 9⟩ "bad frame"
      ⟨true, none, none⟩ 0).1 rfl (by decide),
   (resolver_error_policy ⟨"n.txt", ".txt", .ok ⟨true, some 64000, none⟩, .ok 9⟩ ""
      ⟨true, none, none⟩ 0).2.2.2.1 (by decide)⟩

/-! ### Aggregation lemmas -/

theorem processFile_eq (s : Stats) (f : AudioFile) :
    processFile s f =
      addToBucket { s with totalSize := s.totalSize + sizeContrib f } (bucketFile f) := by
  cases hs : f.stat <;> simp [processFile, bucketFile, sizeContrib, hs, addToBucket]

theorem sumBuckets_addToBucket (s : Stats) (b : Bucket) :
    sumBuckets (addToBucket s b) = sumBuckets s + 1 := by
  cases b <;> simp [addToBucket, sumBuckets] <;> omega

theorem sumBuckets_size_update (s : Stats) (q : ℚ) :
    sumBuckets { s with totalSize := q } = sumBuckets s := rfl

theorem sumBuckets_processFile (s : Stats) (f : AudioFile) :
    sumBuckets (processFile s f) = sumBuckets s + 1 := by
  rw [processFile_eq, sumBuckets_addToBucket, sumBuckets_size_update]

theorem sumBuckets_foldl (l : List AudioFile) (s : Stats) :
    sumBuckets (l.foldl processFile s) = sumBuckets s + l.length := by
  induction l generalizing s with
  | nil => simp
  | cons f t ih =>
    rw [List.foldl_cons, ih, sumBuckets_processFile, List.length_cons]
    omega

theorem countOf_addToBucket (s : Stats) (b c : Bucket) :
    countOf (addToBucket s b) c = countOf s c + (if b = c then 1 else 0) := by
  cases b <;> cases c <;> simp [addToBucket, countOf]

theorem countOf_size_update (s : Stats) (q : ℚ) (b : Bucket) :
    countOf { s with totalSize := q } b = countOf s b := by
  cases b <;> rfl

theorem countOf_processFile (s : Stats) (f : AudioFile) (b : Bucket) :
    countOf (processFile s f) b = countOf s b + (if bucketFile f = b then 1 else 0) := by
  rw [processFile_eq, countOf_addToBucket, countOf_size_update]

theorem totalSize_addToBucket (s : Stats) (b : Bucket) :
    (addToBucket s b).totalSize = s.totalSize := by
  cases b <;> rfl

theorem totalSize_processFile (s : Stats) (f : AudioFile) :
    (processFile s f).totalSize = s.totalSize + sizeContrib f := by
  rw [processFile_eq, totalSize_addToBucket]

theorem totalSize_foldl (l : List AudioFile) (s : Stats) :
    (l.foldl processFile s).totalSize = s.totalSize + (l.map sizeContrib).sum := by
  induction l generalizing s with
  | nil => simp
  | cons f t ih =>
    rw [List.foldl_cons, ih, totalSize_processFile, List.map_cons, List.sum_cons]
    ring

theorem processFile_comm (z : Stats) (x y : AudioFile) :
    processFile (processFile z x) y = processFile (processFile z y) x := by
  have hc : ∀ b, countOf (processFile (processFile z x) y) b
      = countOf (processFile (processFile z y) x) b := by
    intro b
    rw [countOf_processFile, countOf_processFile, countOf_processFile, countOf_processFile]
    omega
  have ht : (processFile (processFile z x) y).totalSize
      = (processFile (processFile z y) x).totalSize := by
    rw [totalSize_processFile, totalSize_processFile, totalSize_processFile,
      totalSize_processFile]
    ring
  ext
  · exact hc .high
  · exact hc .good
  · exact hc .medium
  · exact hc .standard
  · exact hc .low
  · exact hc .unknown
  · exact ht

theorem detailedStats_perm {l1 l2 : List AudioFile} (h : l1.Perm l2) :
    detailedStats l1 = detailedStats l2 := by
  unfold detailedStats
  exact h.foldl_eq' (fun x _ y _ z => processFile_comm z x y) initStats

theorem quickStep_eq (s : QuickStats) (f : AudioFile) :
    quickStep s f = ⟨bumpCount s.counts (quickLabel f), s.totalSize + sizeContrib f⟩ := by
  cases hs : f.stat <;> simp [quickStep, quickLabel, sizeContrib, hs]

theorem lookupCount_bumpCount (d : List (String × Nat)) (q r : String) :
    lookupCount (bumpCount d q) r = lookupCount d r + (if q = r then 1 else 0) := by
  induction d with
  | nil => simp [bumpCount, lookupCount]
  | cons kv t ih =>
    obtain ⟨k, v⟩ := kv
    by_cases hk : k = q
    · subst hk
      by_cases hr : k = r <;> simp [bumpCount, lookupCount, hr]
    · by_cases hr : k = r
      · subst hr
        have : ¬ q = k := fun h => hk h.symm
        simp [bumpCount, lookupCount, hk, this]
      · simp [bumpCount, lookupCount, hk, hr, ih]

theorem sumVals_bumpCount (d : List (String × Nat)) (q : String) :
    sumVals (bumpCount d q) = sumVals d + 1 := by
  induction d with
  | nil => rfl
  | cons kv t ih =>
    obtain ⟨k, v⟩ := kv
    by_cases hk : k = q <;> simp [bumpCount, hk, sumVals, ih] <;> omega

theorem percSum_eq (d : List (String × Nat)) (n : Nat) :
    percSum d n = (sumVals d : ℚ) / n * 100 := by
  induction d with
  | nil => simp [percSum, sumVals]
  | cons kv t ih =>
    obtain ⟨k, v⟩ := kv
    rw [percSum, sumVals, ih]
    push_cast
    ring

theorem bucketPercSum_eq (s : Stats) (n : Nat) :
    bucketPercSum s n = (sumBuckets s : ℚ) / n * 100 := by
  unfold bucketPercSum sumBuckets
  push_cast
  ring

theorem quick_lookup_foldl (l : List AudioFile) (s : QuickStats) (q : String) :
    lookupCount ((l.foldl quickStep s).counts) q
      = lookupCount s.counts q + l.countP (fun f => decide (quickLabel f = q)) := by
  induction l generalizing s with
  | nil => simp
  | cons f t ih =>
    rw [List.foldl_cons, ih, quickStep_eq, List.countP_cons]
    by_cases hq : quickLabel f = q
    · simp [lookupCount_bumpCount, hq]
      omega
    · simp [lookupCount_bumpCount, hq]

theorem quick_sumVals_foldl (l : List AudioFile) (s : QuickStats) :
    sumVals ((l.foldl quickStep s).counts) = sumVals s.counts + l.length := by
  induction l generalizing s with
  | nil => simp
  | cons f t ih =>
    rw [List.foldl_cons, ih, quickStep_eq]
    simp [sumVals_bumpCount]
    omega

theorem quick_totalSize_foldl (l : List AudioFile) (s : QuickStats) :
    (l.foldl quickStep s).totalSize = s.totalSize + (l.map sizeContrib).sum := by
  induction l generalizing s with
  | nil => simp
  | cons f t ih =>
    rw [List.foldl_cons, ih, quickStep_eq, List.map_cons, List.sum_cons]
    ring

theorem sumGroupSizes_bumpGroup (d : List (String × List AudioFile)) (q : String)
    (f : AudioFile) : sumGroupSizes (bumpGroup d q f) = sumGroupSizes d + 1 := by
  induction d with
  | nil => rfl
  | cons kv t ih =>
    obtain ⟨k, v⟩ := kv
    by_cases hk : k = q <;> simp [bumpGroup, hk, sumGroupSizes, ih] <;> omega

theorem folderGroups_total (l : List AudioFile) :
    sumGroupSizes (folderGroups l) = l.length := by
  suffices h : ∀ d, sumGroupSizes
      (l.foldl (fun d f => bumpGroup d (folderLabel f) f) d) = sumGroupSizes d + l.length by
    simpa [folderGroups, sumGroupSizes] using h []
  induction l with
  | nil => simp
  | cons f t ih =>
    intro d
    rw [List.foldl_cons, ih, sumGroupSizes_bumpGroup, List.length_cons]
    omega

/-! ### C3 -/

/-- C3: in every report mode each discovered file is assigned exactly one
tier and counted exactly once — each detailed-loop iteration grows the
bucket total by exactly one and the final bucket total, quick-dict total
and folder-group total all equal the file count — and a file whose bitrate
cannot be determined (a `stat` raise in the loop, or a resolver result of
0 after an extraction error or unsupported path) lands in "Unknown
Quality". -/
theorem every_file_counted_once (files : List AudioFile) (f : AudioFile) (s : Stats)
    (e : String) :
    sumBuckets (processFile s f) = sumBuckets s + 1
    ∧ (f.stat = .error e ∨ (get_audio_bitrate f).1 = 0 →
        bucketFile f = .unknown ∧ quickLabel f = "Unknown Quality")
    ∧ ((get_audio_bitrate f).1 = 0 → folderLabel f = "Unknown Quality")
    ∧ sumBuckets (detailedStats files) = files.length
    ∧ sumVals (quickStats files).counts = files.length
    ∧ sumGroupSizes (folderGroups files) = files.length := by
  refine ⟨sumBuckets_processFile s f, ?_, ?_, ?_, ?_, folderGroups_total files⟩
  · rintro (hs | hb)
    · exact ⟨by simp [bucketFile, hs], by simp [quickLabel, hs]⟩
    · cases hs : f.stat with
      | error e2 => exact ⟨by simp [bucketFile, hs], by simp [quickLabel, hs]⟩
      | ok n =>
        refine ⟨?_, ?_⟩
        · simp [bucketFile, hs, hb]
          decide
        · simp [quickLabel, hs, hb]
          rfl
  · intro hb
    simp [folderLabel, hb]
    rfl
  · rw [detailedStats, sumBuckets_foldl]
    simp [initStats, sumBuckets]
  · rw [quickStats, quick_sumVals_foldl]
    simp [sumVals]

/-- Witness for C3: a file whose reader raises resolves to bitrate 0 and is
classified Unknown in all modes. -/
theorem every_file_counted_once_app :
    sumBuckets (processFile initStats ⟨"x.mp3", ".mp3", .error "boom", .ok 5⟩)
      = sumBuckets initStats + 1
    ∧ bucketFile ⟨"x.mp3", ".mp3", .error "boom", .ok 5⟩ = .unknown
    ∧ quickLabel ⟨"x.mp3", ".mp3", .error "boom", .ok 5⟩ = "Unknown Quality"
    ∧ folderLabel ⟨"x.mp3", ".mp3", .error "boom", .ok 5⟩ = "Unknown Quality" := by
  have h := every_file_counted_once [] ⟨"x.mp3", ".mp3", .error "boom", .ok 5⟩ initStats ""
  have hu := h.2.1 (Or.inr (by decide))
  exact ⟨h.1, hu.1, hu.2, h.2.2.1 (by decide)⟩

/-! ### C4 -/

/-- C4: for a non-empty input set, the detailed report and the quick
summary both report per-tier counts summing to the number of discovered
files, and the exact per-tier percentages `count / total * 100` sum to
exactly 100. -/
theorem tier_counts_sum_to_total (files : List AudioFile) (h : files ≠ []) :
    check_audio_quality files = .report (detailedStats files) files.length
    ∧ sumBuckets (detailedStats files) = files.length
    ∧ bucketPercSum (detailedStats files) files.length = 100
    ∧ quick_quality_check files = .summary (quickStats files) files.length
    ∧ sumVals (quickStats files).counts = files.length
    ∧ percSum (quickStats files).counts files.length = 100 := by
  have hn : (files.length : ℚ) ≠ 0 := by
    have : 0 < files.length := List.length_pos.mpr h
    exact_mod_cast Nat.pos_iff_ne_zero.mp this
  have hsum : sumBuckets (detailedStats files) = files.length := by
    rw [detailedStats, sumBuckets_foldl]
    simp [initStats, sumBuckets]
  have hqsum : sumVals (quickStats files).counts = files.length := by
    rw [quickStats, quick_sumVals_foldl]
    simp [sumVals]
  refine ⟨?_, hsum, ?_, ?_, hqsum, ?_⟩
  · cases files with
    | nil => exact absurd rfl h
    | cons a t => rfl
  · rw [bucketPercSum_eq, hsum, div_self hn, one_mul]
  · cases files with
    | nil => exact absurd rfl h
    | cons a t => rfl
  · rw [percSum_eq, hqsum, div_self hn, one_mul]

/-- Witness for C4 on a concrete two-file set. -/
theorem tier_counts_sum_to_total_app :
    sumBuckets (detailedStats
      [⟨"a.mp3", ".mp3", .ok ⟨true, some 320000, none⟩, .ok 2400000⟩,
       ⟨"b.wav", ".wav", .ok ⟨true, none, some 0⟩, .ok 0⟩]) = 2
    ∧ bucketPercSum (detailedStats
      [⟨"a.mp3", ".mp3", .ok ⟨true, some 320000, none⟩, .ok 2400000⟩,
       ⟨"b.wav", ".wav", .ok ⟨true, none, some 0⟩, .ok 0⟩]) 2 = 100 := by
  have h := tier_counts_sum_to_total
    [⟨"a.mp3", ".mp3", .ok ⟨true, some 320000, none⟩, .ok 2400000⟩,
     ⟨"b.wav", ".wav", .ok ⟨true, none, some 0⟩, .ok 0⟩] (by decide)
  exact ⟨h.2.1, h.2.2.1⟩

/-! ### C5 -/

/-- C5: the aggregation pipeline is order-independent — permuting the file
list leaves the detailed report's statistics record (all six bucket counts
and the accumulated total size) unchanged, and leaves the quick summary's
label→count table and total size unchanged. -/
theorem aggregation_order_independent (l1 l2 : List AudioFile) (h : l1.Perm l2) :
    detailedStats l1 = detailedStats l2
    ∧ (∀ q, lookupCount (quickStats l1).counts q = lookupCount (quickStats l2).counts q)
    ∧ (quickStats l1).totalSize = (quickStats l2).totalSize := by
  refine ⟨detailedStats_perm h, ?_, ?_⟩
  · intro q
    rw [quickStats, quickStats, quick_lookup_foldl, quick_lookup_foldl,
      h.countP_eq]
  · rw [quickStats, quickStats, quick_totalSize_foldl, quick_totalSize_foldl,
      (h.map sizeContrib).sum_eq]

/-- Witness for C5 on a concrete transposition. -/
theorem aggregation_order_independent_app :
    detailedStats
        [⟨"a.mp3", ".mp3", .ok ⟨true, some 320000, none⟩, .ok 2400000⟩,
         ⟨"b.wav", ".wav", .ok ⟨true, none, some 0⟩, .ok 0⟩]
      = detailedStats
        [⟨"b.wav", ".wav", .ok ⟨true, none, some 0⟩, .ok 0⟩,
         ⟨"a.mp3", ".mp3", .ok ⟨true, some 320000, none⟩, .ok 2400000⟩] :=
  (aggregation_order_independent _ _
    (List.Perm.swap ⟨"b.wav", ".wav", .ok ⟨true, none, some 0⟩, .ok 0⟩
      ⟨"a.mp3", ".mp3", .ok ⟨true, some 320000, none⟩, .ok 2400000⟩ [])).1

/-! ### C6 -/

/-- C6: the inspector's quality label is computed first-match-wins over its
own rule table, so sample_rate 44100 with bitrate 1,100,000 bps yields
exactly "Lossless (44.1kHz)": the 44.1 kHz lossless rule fires before the
500 kbps AAC rule, both through the rule function and through
`get_audio_info` on such a file. -/
theorem inspector_quality_rules (sr br : Nat) (f : InspectFile) (p : MP4Props) :
    (96000 ≤ sr → inspectorQuality sr br = "Hi-Res (96kHz+)")
    ∧ (sr < 96000 → 48000 ≤ sr → 2000000 ≤ br →
        inspectorQuality sr br = "Lossless (48kHz)")
    ∧ (sr < 96000 → ¬(48000 ≤ sr ∧ 2000000 ≤ br) → 44100 ≤ sr → 1000000 ≤ br →
        inspectorQuality sr br = "Lossless (44.1kHz)")
    ∧ (sr < 96000 → ¬(48000 ≤ sr ∧ 2000000 ≤ br) → ¬(44100 ≤ sr ∧ 1000000 ≤ br) →
        500000 ≤ br → inspectorQuality sr br = "High Quality AAC 500kbps+")
    ∧ (sr < 96000 → ¬(48000 ≤ sr ∧ 2000000 ≤ br) → ¬(44100 ≤ sr ∧ 1000000 ≤ br) →
        br < 500000 → 320000 ≤ br → inspectorQuality sr br = "AAC 320kbps")
    ∧ (sr < 96000 → ¬(48000 ≤ sr ∧ 2000000 ≤ br) → ¬(44100 ≤ sr ∧ 1000000 ≤ br) →
        br < 320000 → inspectorQuality sr br = "AAC 256kbps or lower")
    ∧ inspectorQuality 44100 1100000 = "Lossless (44.1kHz)"
    ∧ (f.present = true → lowerStr f.ext = ".m4a" → f.read = .ok p →
        p.sample_rate = some 44100 → p.bitrate = some 1100000 →
        ∃ r, get_audio_info f = .report r ∧ r.quality = "Lossless (44.1kHz)") := by
  refine ⟨?_, ?_, ?_, ?_, ?_, ?_, by decide, ?_⟩
  · intro h
    unfold inspectorQuality
    rw [if_pos (show sr ≥ 96000 from h)]
  · intro h0 h1 h2
    unfold inspectorQuality
    rw [if_neg (by omega), if_pos ⟨h1, h2⟩]
  · intro h0 hn h1 h2
    unfold inspectorQuality
    rw [if_neg (by omega), if_neg hn, if_pos ⟨h1, h2⟩]
  · intro h0 hn hn2 h1
    unfold inspectorQuality
    rw [if_neg (by omega), if_neg hn, if_neg hn2, if_pos (show br ≥ 500000 from h1)]
  · intro h0 hn hn2 h1 h2
    unfold inspectorQuality
    rw [if_neg (by omega), if_neg hn, if_neg hn2, if_neg (by omega),
      if_pos (show br ≥ 320000 from h2)]
  · intro h0 hn hn2 h1
    unfold inspectorQuality
    rw [if_neg (by omega), if_neg hn, if_neg hn2, if_neg (by omega), if_neg (by omega)]
  · intro hp hext hread hsr hbr
    unfold get_audio_info
    rw [if_neg (by simp [hp]), if_neg (fun hc => hc (Or.inl hext)), hread]
    refine ⟨_, rfl, ?_⟩
    simp only [hsr, hbr, Option.getD_some]
    decide

/-- Witness for C6: a concrete existing `.m4a` file with sample rate 44100
and bitrate 1,100,000 bps is reported as "Lossless (44.1kHz)". -/
theorem inspector_quality_rules_app :
    inspectorQuality 44100 1100000 = "Lossless (44.1kHz)"
    ∧ ∃ r, get_audio_info
        ⟨"t.m4a", ".m4a", true,
          .ok ⟨some 1100000, some 44100, some 200, 9000000, none, none, none, none, none⟩⟩
        = .report r ∧ r.quality = "Lossless (44.1kHz)" :=
  ⟨(inspector_quality_rules 44100 1100000
      ⟨"t.m4a", ".m4a", true, .error ""⟩
      ⟨none, none, none, 0, none, none, none, none, none⟩).2.2.2.2.2.2.1,
   (inspector_quality_rules 44100 1100000
      ⟨"t.m4a", ".m4a", true,
        .ok ⟨some 1100000, some 44100, some 200, 9000000, none, none, none, none, none⟩⟩
      ⟨some 1100000, some 44100, some 200, 9000000, none, none, none, none, none⟩).2.2.2.2.2.2.2
     rfl (by decide) rfl rfl rfl⟩

/-! ### Scanner lemmas -/

theorem leadsList_self_append (l r : List Char) : leadsList l (l ++ r) = true := by
  induction l with
  | nil => rfl
  | cons a t ih => simp [leadsList, ih]

theorem endsList_append_self (a b : List Char) : endsList b (a ++ b) = true := by
  unfold endsList
  rw [List.reverse_append]
  exact leadsList_self_append _ _

theorem scan_foldl_nil (exts names acc : List String)
    (h : ∀ ext ∈ exts, names.filter (fun n => endsList ext.data n.data) = []) :
    exts.foldl (fun acc ext => acc ++ names.filter (fun n => endsList ext.data n.data)) acc
      = acc := by
  induction exts generalizing acc with
  | nil => rfl
  | cons e t ih =>
    rw [List.foldl_cons, h e (by simp), List.append_nil]
    exact ih _ (fun x hx => h x (by simp [hx]))

theorem scanResult_nil (names : List String) (h : ∀ n ∈ names, matchesScan n = false) :
    scanResult names = [] := by
  apply scan_foldl_nil
  intro ext hext
  rw [List.filter_eq_nil_iff]
  intro n hn
  have hm := h n hn
  simp only [matchesScan, List.any_eq_false] at hm
  simp [hm ext hext]

theorem mem_scan_foldl (exts names acc : List String) (x : String) :
    x ∈ exts.foldl
        (fun acc ext => acc ++ names.filter (fun n => endsList ext.data n.data)) acc
      ↔ x ∈ acc ∨ ∃ ext ∈ exts, x ∈ names.filter (fun n => endsList ext.data n.data) := by
  induction exts generalizing acc with
  | nil => simp
  | cons e t ih =>
    rw [List.foldl_cons, ih]
    constructor
    · rintro (hx | ⟨ext, hext, hx⟩)
      · rcases List.mem_append.mp hx with hx | hx
        · exact Or.inl hx
        · exact Or.inr ⟨e, by simp, hx⟩
      · exact Or.inr ⟨ext, by simp [hext], hx⟩
    · rintro (hx | ⟨ext, hext, hx⟩)
      · exact Or.inl (List.mem_append.mpr (Or.inl hx))
      · rcases List.mem_cons.mp hext with rfl | hext
        · exact Or.inl (List.mem_append.mpr (Or.inr hx))
        · exact Or.inr ⟨ext, hext, hx⟩

/-! ### C9 -/

/-- C9 counterexample: a file named with the uppercase extension `.MP3`,
which equals `.mp3` under case-insensitive comparison, is matched by no
scan pattern and is absent from the scan result. -/
theorem scanner_not_case_insensitive :
    lowerStr ".MP3" = ".mp3"
    ∧ matchesScan "song.MP3" = false
    ∧ scanResult ["song.MP3"] = [] :=
  ⟨by decide, by decide, by decide⟩

/-- C9 amended: scan matching is case-sensitive — a file is in the scan
result exactly when it is one of the root's files and its name ends,
verbatim, with one of the eight lowercase extensions; in particular every
name with the exact lowercase suffix ".mp3" is included. -/
theorem scanner_matches_exact_lowercase (names : List String) (name stem : String) :
    (name ∈ scanResult names ↔ name ∈ names ∧ matchesScan name = true)
    ∧ matchesScan (stem ++ ".mp3") = true := by
  constructor
  · rw [scanResult, mem_scan_foldl]
    simp only [List.not_mem_nil, false_or, List.mem_filter, matchesScan, List.any_eq_true]
    constructor
    · rintro ⟨ext, hext, hn, he⟩
      exact ⟨hn, ext, hext, he⟩
    · rintro ⟨hn, ext, hext, he⟩
      exact ⟨ext, hext, hn, he⟩
  · have hd : (stem ++ ".mp3").data = stem.data ++ ".mp3".data := String.data_append ..
    simp only [matchesScan, List.any_eq_true]
    exact ⟨".mp3", by simp [audio_extensions], by rw [hd]; exact endsList_append_self ..⟩

/-! ### C7 -/

/-- C7: the three bulk modes treat an empty input set identically — when
nothing matches the scan (so the scan result is empty), each returns its
no-files message (each starting with "No audio files found") and computes
no statistics, groups or totals. -/
theorem empty_scan_short_circuits (names : List String)
    (h : ∀ n ∈ names, matchesScan n = false) :
    scanResult names = []
    ∧ check_audio_quality [] = .noFiles "No audio files found!"
    ∧ quick_quality_check [] = .noFiles "No audio files found!"
    ∧ check_specific_folder []
        = .noFiles "No audio files found in the specified folder!"
    ∧ leadsList "No audio files found".data "No audio files found!".data = true
    ∧ leadsList "No audio files found".data
        "No audio files found in the specified folder!".data = true :=
  ⟨scanResult_nil names h, rfl, rfl, rfl, by decide, by decide⟩

/-- Witness for C7: a directory holding only a text file scans to the empty
list. -/
theorem empty_scan_short_circuits_app :
    scanResult ["readme.txt"] = []
    ∧ check_audio_quality [] = .noFiles "No audio files found!" :=
  ⟨(empty_scan_short_circuits ["readme.txt"] (by decide)).1,
   (empty_scan_short_circuits ["readme.txt"] (by decide)).2.1⟩

/-! ### C8 -/

/-- C8 counterexample: the existence check runs before the extension
check, so a nonexistent path with extension `.txt` (not `.m4a`/`.mp4`)
gets the file-not-found message, not the unsupported-format message the
claim requires for every non-`.m4a`/`.mp4` path. -/
theorem inspector_guard_order :
    get_audio_info ⟨"notes.txt", ".txt", false, .error "unused"⟩
      = .fileNotFound "File not found: notes.txt"
    ∧ get_audio_info ⟨"notes.txt", ".txt", false, .error "unused"⟩
      ≠ .unsupported "Only supports .m4a or .mp4 files" :=
  ⟨rfl, by decide⟩

/-- C8 amended: the inspector fails fast — for an existing path whose
lowered extension is neither `.m4a` nor `.mp4` it reports only "Only
supports .m4a or .mp4 files", and for a nonexistent path it reports only
the file-not-found message, attempting no metadata extraction (the
existence check runs first). -/
theorem inspector_fails_fast (f : InspectFile) :
    (f.present = false → get_audio_info f = .fileNotFound ("File not found: " ++ f.name))
    ∧ (f.present = true → lowerStr f.ext ≠ ".m4a" → lowerStr f.ext ≠ ".mp4" →
        get_audio_info f = .unsupported "Only supports .m4a or .mp4 files") := by
  constructor
  · intro hp
    unfold get_audio_info
    rw [if_pos hp]
  · intro hp h1 h2
    unfold get_audio_info
    rw [if_neg (by simp [hp]), if_pos (by simp [h1, h2])]

/-- Witness for C8 amended: an existing `.txt` file is rejected with the
unsupported-format message, a missing file with the not-found message. -/
theorem inspector_fails_fast_app :
    get_audio_info ⟨"doc.txt", ".txt", true, .error "unused"⟩
      = .unsupported "Only supports .m4a or .mp4 files"
    ∧ get_audio_info ⟨"gone.m4a", ".m4a", false, .error "unused"⟩
      = .fileNotFound "File not found: gone.m4a" :=
  ⟨(inspector_fails_fast ⟨"doc.txt", ".txt", true, .error "unused"⟩).2 rfl
      (by decide) (by decide),
   (inspector_fails_fast ⟨"gone.m4a", ".m4a", false, .error "unused"⟩).1 rfl⟩
